import Mathlib

/-!
Shallow embedding of `convert-jmh-to-md.py`: a script that reads a list of
JMH benchmark result records from a JSON file and writes a Markdown report
(a table plus a graphs section), optionally rendering one bar chart per
benchmark class.

Python strings are modelled as Lean `String`, JSON numbers as `ℚ` (the
script only manipulates finite decimal values; `inf`/`nan` and underscore
digit separators accepted by Python `float` are outside the modelled
subset), JSON `null` as a dedicated constructor, and JSON objects as
association lists in insertion order (Python 3.7+ dicts iterate in
insertion order; keys are assumed distinct as in any parsed JSON object).
-/

namespace Jmh

attribute [local semireducible] Rat.mul Rat.add Rat.sub Rat.inv Rat.ofScientific

/-- Value model for the JSON fields the script reads: a number, a string,
or `null` (Python `None`). -/
inductive PyVal where
  | num (q : ℚ)
  | str (s : String)
  | null
deriving DecidableEq, Repr

/-- True exactly on numeric values. -/
def PyVal.isNum : PyVal → Bool
  | .num _ => true
  | _ => false

/-- Digit character for a value below ten (the script only ever renders
base-10 digits). -/
def digitChar (n : Nat) : Char :=
  match n with
  | 0 => '0' | 1 => '1' | 2 => '2' | 3 => '3' | 4 => '4'
  | 5 => '5' | 6 => '6' | 7 => '7' | 8 => '8' | 9 => '9'
  | _ => '?'

/-- Decimal digits of a natural number, most significant first, with a
structural fuel argument (the value shrinks by a factor of ten per step,
so any fuel of at least the digit count is enough). -/
def natDigitsAux : Nat → Nat → List Char
  | 0, _ => []
  | fuel + 1, n =>
    if n < 10 then [digitChar n]
    else natDigitsAux fuel (n / 10) ++ [digitChar (n % 10)]

/-- Decimal digits of a natural number, most significant first (the
rendering Python uses for the integer part of a fixed-point float);
`n + 1` fuel always suffices. -/
def natDigits (n : Nat) : List Char := natDigitsAux (n + 1) n

/-- Exactly `p` decimal digits of `n`, left-padded with zeros: the digits
Python prints after the decimal point for a `:.pf` format. -/
def padDigits : Nat → Nat → List Char
  | 0, _ => []
  | p + 1, n => padDigits p (n / 10) ++ [digitChar (n % 10)]

/-- Round to the nearest integer, ties to even — the rounding Python's
fixed-point float formatting applies (modelled on the exact rational
value of the input). -/
def roundHalfEven (q : ℚ) : ℤ :=
  let f := q.floor
  let r := q - (f : ℚ)
  if r < 1/2 then f
  else if 1/2 < r then f + 1
  else if f % 2 = 0 then f else f + 1

/-- Python's `f"{x:.precf}"` fixed-point rendering of a finite value:
optional sign, integer part, a dot, and exactly `prec` fraction digits. -/
def formatFixed (prec : Nat) (q : ℚ) : String :=
  let scaled := roundHalfEven (q * (10 : ℚ) ^ prec)
  let sign := if scaled < 0 then "-" else ""
  let m := scaled.natAbs
  sign ++ String.mk (natDigits (m / 10 ^ prec)) ++ "." ++ String.mk (padDigits prec (m % 10 ^ prec))

/-- Numeric value of a digit character, `none` on anything else. -/
def digitVal (c : Char) : Option Nat :=
  if '0' ≤ c ∧ c ≤ '9' then some (c.toNat - '0'.toNat) else none

/-- Split off the longest run of leading digits. -/
def takeDigits : List Char → List Nat × List Char
  | [] => ([], [])
  | c :: r =>
    match digitVal c with
    | some d => let p := takeDigits r; (d :: p.1, p.2)
    | none => ([], c :: r)

/-- Natural number denoted by a digit list, most significant first. -/
def digitsToNat (ds : List Nat) : Nat :=
  ds.foldl (fun a d => a * 10 + d) 0

/-- Consume an optional leading sign; returns whether it was negative. -/
def takeSign : List Char → Bool × List Char
  | '+' :: r => (false, r)
  | '-' :: r => (true, r)
  | r => (false, r)

/-- Parse an optional exponent suffix (`e`/`E`, optional sign, digits);
`some 0` on empty input, `none` when the tail is not a valid exponent. -/
def takeExp : List Char → Option ℤ
  | [] => some 0
  | c :: r =>
    if c = 'e' ∨ c = 'E' then
      let p := takeSign r
      let q := takeDigits p.2
      if q.1 ≠ [] ∧ q.2 = [] then
        some ((if p.1 then -1 else 1) * (digitsToNat q.1 : ℤ))
      else none
    else none

/-- Python `float(s)` on the finite-decimal subset: optional surrounding
whitespace, optional sign, then `digits[.digits]` or `.digits`, with an
optional exponent. `none` models the `ValueError` raised on anything
else (such as the literal `"N/A"`). -/
def parseFloat (s : String) : Option ℚ :=
  let core := (s.data.dropWhile Char.isWhitespace).reverse.dropWhile Char.isWhitespace |>.reverse
  let sgn := takeSign core
  let ip := takeDigits sgn.2
  let withExp (mant : ℚ) (rest : List Char) : Option ℚ :=
    (takeExp rest).map fun e => (if sgn.1 then -mant else mant) * (10 : ℚ) ^ e
  match ip.2 with
  | '.' :: r2 =>
    let fp := takeDigits r2
    if ip.1 = [] ∧ fp.1 = [] then none
    else withExp ((digitsToNat ip.1 : ℚ) + (digitsToNat fp.1 : ℚ) / (10 : ℚ) ^ fp.1.length) fp.2
  | rest =>
    if ip.1 = [] then none
    else withExp (digitsToNat ip.1 : ℚ) rest

/-- Python `float(val)` applied to a JSON value: numbers pass through,
strings are parsed, `None` raises `TypeError` (modelled as `none`). -/
def pyFloat : PyVal → Option ℚ
  | .num q => some q
  | .str s => parseFloat s
  | .null => none

/-- The `try: f"{float(val):.precf}" except (ValueError, TypeError): str(val)`
pattern the script uses for scores, errors and percentile values. The
fallback only ever fires on strings and `None`; `str(None)` is `"None"`. -/
def tryFixed (prec : Nat) (v : PyVal) : String :=
  match pyFloat v with
  | some q => formatFixed prec q
  | none =>
    match v with
    | .str s => s
    | .null => "None"
    | .num q => formatFixed prec q

/-- The script's `fmt` helper (lines 24-28): ten decimal places when the
value converts to a float, the raw text otherwise. -/
def fmt (v : PyVal) : String := tryFixed 10 v

/-- The `primaryMetric` object of a record; every field may be absent. -/
structure Metric where
  score : Option PyVal := none
  scoreError : Option PyVal := none
  scoreUnit : Option String := none
  scorePercentiles : Option (List (String × PyVal)) := none
deriving DecidableEq, Repr

/-- One JMH result record as the script reads it: each `entry.get` key,
absent when the JSON object lacks it. -/
structure Entry where
  benchmark : Option String := none
  mode : Option String := none
  params : Option (List (String × String)) := none
  primaryMetric : Option Metric := none
deriving DecidableEq, Repr

/-- Split a character list at every occurrence of the separator; the
result always has one more piece than there are separators, matching
Python `str.split` with an explicit separator. -/
def splitOnCharAux (sep : Char) : List Char → List Char → List (List Char)
  | [], acc => [acc.reverse]
  | c :: rest, acc =>
    if c = sep then acc.reverse :: splitOnCharAux sep rest []
    else splitOnCharAux sep rest (c :: acc)

/-- Python `s.split(sep)` for a one-character separator. -/
def splitOnChar (sep : Char) (s : String) : List String :=
  (splitOnCharAux sep s.data []).map String.mk

/-- Line 44: `entry.get("benchmark", "N/A")`. -/
def Entry.benchmarkFullName (e : Entry) : String := e.benchmark.getD "N/A"

/-- Line 45: `benchmark_full_name.split(".")`. -/
def Entry.nameParts (e : Entry) : List String := splitOnChar '.' e.benchmarkFullName

/-- Line 46: dotted class-level identifier, `"UnknownClass"` for a
single-segment name. -/
def Entry.fullClassName (e : Entry) : String :=
  if 1 < e.nameParts.length then String.intercalate "." e.nameParts.dropLast
  else "UnknownClass"

/-- Line 47: second-to-last segment, `"UnknownClass"` for a
single-segment name. -/
def Entry.className (e : Entry) : String :=
  if 1 < e.nameParts.length then e.nameParts.getD (e.nameParts.length - 2) ""
  else "UnknownClass"

/-- Line 48: last segment of the dotted name. -/
def Entry.methodName (e : Entry) : String := e.nameParts.getLastD ""

/-- Line 50: `entry.get("mode", "N/A")`. -/
def Entry.modeStr (e : Entry) : String := e.mode.getD "N/A"

/-- Line 52: `entry.get("params", {})`. -/
def Entry.paramsDict (e : Entry) : List (String × String) := e.params.getD []

/-- Line 55 etc.: `entry.get("primaryMetric", {})`. -/
def Entry.metric (e : Entry) : Metric := e.primaryMetric.getD {}

/-- Line 55: `...get("score", "N/A")`. -/
def Entry.scoreVal (e : Entry) : PyVal := e.metric.score.getD (.str "N/A")

/-- Line 56: `...get("scoreError", "N/A")`. -/
def Entry.errorVal (e : Entry) : PyVal := e.metric.scoreError.getD (.str "N/A")

/-- Line 57: `...get("scoreUnit", "N/A")`. -/
def Entry.unitStr (e : Entry) : String := e.metric.scoreUnit.getD "N/A"

/-- Line 59: `...get("scorePercentiles", {})`. -/
def Entry.percentiles (e : Entry) : List (String × PyVal) :=
  e.metric.scorePercentiles.getD []

/-- The `.replace` of line 53 with a single-character pattern: every
dollar sign becomes backslash-dollar. -/
def escDollar : List Char → List Char
  | [] => []
  | c :: cs => if c = '$' then '\\' :: '$' :: escDollar cs else c :: escDollar cs

/-- Line 53: `", ".join(f"{k}={v}" ...).replace("$", "\\$")` on a
non-empty dict, `"-"` on an empty one. -/
def paramsStr (ps : List (String × String)) : String :=
  if ps.isEmpty then "-"
  else String.mk (escDollar (String.intercalate ", " (ps.map fun kv => kv.1 ++ "=" ++ kv.2)).data)

/-- Sort key of line 62, `lambda x: float(x)`; Python raises on a
non-numeric key, so the total default 0 here is only ever relied on
under the `percKeysOk` guard that models that raise. -/
def sortKeyQ (kv : String × PyVal) : ℚ := (parseFloat kv.1).getD 0

/-- Ordering of percentile entries by numeric key. -/
def percRel (a b : String × PyVal) : Prop := sortKeyQ a ≤ sortKeyQ b

instance : DecidableRel percRel := fun a b => inferInstanceAs (Decidable (sortKeyQ a ≤ sortKeyQ b))

instance : IsTotal (String × PyVal) percRel := ⟨fun _ _ => le_total _ _⟩

instance : IsTrans (String × PyVal) percRel := ⟨fun _ _ _ hab hbc => le_trans hab hbc⟩

/-- All percentile keys convert to floats (otherwise line 62 raises). -/
def percKeysOk (ps : List (String × PyVal)) : Bool :=
  ps.all fun kv => (parseFloat kv.1).isSome

/-- Line 62: `sorted(percentiles, key=lambda x: float(x))`; Python's sort
is stable, as is insertion sort. -/
def sortedPercentiles (ps : List (String × PyVal)) : List (String × PyVal) :=
  List.insertionSort percRel ps

/-- Lines 61-67: each entry rendered `P<key>=<value>` with the value at
six decimal places when numeric, raw text otherwise. -/
def percentileItems (ps : List (String × PyVal)) : List String :=
  (sortedPercentiles ps).map fun kv => "P" ++ kv.1 ++ "=" ++ tryFixed 6 kv.2

/-- Line 69: `", ".join(formatted_percentiles)`. -/
def percentilesStr (ps : List (String × PyVal)) : String :=
  String.intercalate ", " (percentileItems ps)

/-- Lines 44-73: the table row for one record, or the `ValueError` raised
by the percentile sort key when a key is not numeric. -/
def rowFor (e : Entry) : Except String String :=
  if percKeysOk e.percentiles then
    .ok ("| `" ++ e.className ++ "." ++ e.methodName ++ "` | " ++ paramsStr e.paramsDict
      ++ " | " ++ e.modeStr ++ " | " ++ fmt e.scoreVal ++ " | ±" ++ fmt e.errorVal
      ++ " | " ++ e.unitStr ++ " | " ++ percentilesStr e.percentiles ++ " |")
  else .error "ValueError: could not convert string to float"

/-- The rows of the main loop, in input order; the loop does not catch
exceptions, so the first failing record aborts the pass. -/
def rowsFor : List Entry → Except String (List String)
  | [] => .ok []
  | e :: rest =>
    match rowFor e with
    | .error m => .error m
    | .ok row =>
      match rowsFor rest with
      | .error m => .error m
      | .ok rows => .ok (row :: rows)

/-- What the script stores per record in `benchmarks_by_name`
(lines 76-82). -/
structure GRec where
  method : String
  params : String
  score : PyVal
  error : PyVal
  unit : String
deriving DecidableEq, Repr

/-- The dict appended on lines 76-82. -/
def Entry.grec (e : Entry) : GRec :=
  { method := e.methodName, params := paramsStr e.paramsDict,
    score := e.scoreVal, error := e.errorVal, unit := e.unitStr }

/-- `defaultdict(list)` append: extend an existing key in place, else add
the key at the end (Python dicts keep insertion order). -/
def addToGroups (gs : List (String × List GRec)) (k : String) (r : GRec) :
    List (String × List GRec) :=
  match gs with
  | [] => [(k, [r])]
  | g :: rest => if g.1 = k then (g.1, g.2 ++ [r]) :: rest else g :: addToGroups rest k r

/-- Lines 75-82: a record joins its class group only when its raw score
is not `None` (JSON `null`); the textual `"N/A"` default passes this
guard. -/
def updateGroups (gs : List (String × List GRec)) (e : Entry) : List (String × List GRec) :=
  if e.scoreVal = .null then gs else addToGroups gs e.fullClassName e.grec

/-- The grouping accumulated over the whole input, as
`benchmarks_by_name` holds it after the main loop. -/
def groupsOf (data : List Entry) : List (String × List GRec) :=
  data.foldl updateGroups []

/-- Opening curly brace character, written by code point. -/
def lbrace : Char := Char.ofNat 123

/-- Closing curly brace character, written by code point. -/
def rbrace : Char := Char.ofNat 125

/-- Scan to the first closing brace: number of characters before it and
the remainder after it. -/
def findClose (l : List Char) : Option (Nat × List Char) :=
  match l with
  | [] => none
  | c :: r =>
    if c = rbrace then some (0, r)
    else
      match findClose r with
      | none => none
      | some p => some (p.1 + 1, p.2)

/-- Number of non-overlapping matches of the pattern dollar-brace,
one-or-more non-brace characters, brace, scanned with structural fuel;
every step consumes at least one character, so fuel of at least the
input length is enough. On a failed match the scan advances one
character, as the regex engine does. -/
def countPhAux : Nat → List Char → Nat
  | 0, _ => 0
  | fuel + 1, l =>
    match l with
    | [] => 0
    | c :: rest =>
      if c = '$' then
        match rest with
        | [] => 0
        | c2 :: rest2 =>
          if c2 = lbrace then
            match findClose rest2 with
            | some p => if 0 < p.1 then 1 + countPhAux fuel p.2 else countPhAux fuel rest
            | none => countPhAux fuel rest
          else countPhAux fuel rest
      else countPhAux fuel rest

/-- The `re.findall` count of line 90 over the placeholder pattern. -/
def countPh (l : List Char) : Nat := countPhAux l.length l

/-- Lines 86-94: the category labels of one chart group. All methods
equal to `benchmarkInterpolation` (a one-element method set) produce
synthetic placeholder-count labels; otherwise all-parameter-less groups
fall back to method names, and any other group uses the formatted
parameter strings. -/
def categoryLabels (results : List GRec) : List String :=
  let methodList := results.map (·.method)
  if methodList.dedup = ["benchmarkInterpolation"] then
    results.enum.map fun p =>
      "param " ++ String.mk (natDigits p.1) ++ " -> "
        ++ String.mk (natDigits (countPh p.2.params.data)) ++ " variable(s)"
  else if (results.map (·.params)).all (· = "-") then methodList
  else results.map (·.params)

/-- Observable actions of one run, in program order. An uncaught Python
exception is `crash`: traceback on the error stream and a non-zero exit. -/
inductive Effect where
  | mkdirParents (path : String)
  | printOut (s : String)
  | printErr (s : String)
  | savePng (name : String)
  | writeDoc (content : String)
  | exitCode (code : Nat)
  | crash (msg : String)
deriving DecidableEq, Repr

/-- Line 13. -/
def graphsDirPath : String := "docs-site/static/benchmark-graphs"

/-- Line 9. -/
def inputFilePath : String := "build/reports/benchmarks/jmh-results.json"

/-- Line 10. -/
def outputFilePath : String := "docs-site/benchmarks.md"

/-- Parent of the output file, created on line 140. -/
def outputParentPath : String := "docs-site"

/-- Line 109: the image filename of a group. -/
def pngName (k : String) : String := k ++ "_comparison.png"

/-- Line 113. -/
def graphSavedMsg (k : String) : String :=
  "📈 Graph saved: " ++ graphsDirPath ++ "/" ++ pngName k

/-- A grouped record renders into a chart without raising: bar height,
error bar and the `f"{score:.6f}"` x-tick annotation of line 105 all
require numeric values; a string or `None` raises an uncaught
formatting error before the figure is saved. -/
def chartsRowOk (r : GRec) : Bool := r.score.isNum && r.error.isNum

/-- Lines 85-113: the chart loop. Per group in insertion order, either a
saved image plus a progress message, or the uncaught exception that
aborts the loop (earlier groups keep their effects). -/
def chartStage : List (String × List GRec) → Except (List Effect × String) (List Effect)
  | [] => .ok []
  | g :: rest =>
    if g.2.all chartsRowOk then
      match chartStage rest with
      | .ok effs => .ok ([.savePng (pngName g.1), .printOut (graphSavedMsg g.1)] ++ effs)
      | .error p => .error ([.savePng (pngName g.1), .printOut (graphSavedMsg g.1)] ++ p.1, p.2)
    else .error ([], "ValueError: unknown format code f for str")

/-- Lines 32-37. -/
def headerLines : List String :=
  ["# 🧪 Benchmark Results",
   "",
   "| Benchmark | Params | Mode | Score | Error | Units | Percentiles |",
   "|-----------|--------|------|-------|-------|--------|--------------|"]

/-- `Path.stem`: the filename without its final extension. -/
def stem (name : String) : String :=
  let parts := splitOnChar '.' name
  if parts.length ≤ 1 then name else String.intercalate "." parts.dropLast

/-- Underscores become spaces, every other character is kept. -/
def underscoreToSpace : List Char → List Char
  | [] => []
  | c :: cs => (if c = '_' then ' ' else c) :: underscoreToSpace cs

/-- Line 123: `img_path.stem.split(".")[-1].replace("_", " ")`. -/
def titleOf (name : String) : String :=
  String.mk (underscoreToSpace ((splitOnChar '.' (stem name)).getLastD "").data)

/-- Line 116. -/
def sepLine : String := "\n---\n"

/-- Line 117. -/
def graphsHeading : String := "## 📈 Benchmark Graphs\n"

/-- Lines 124-126: the three lines appended per image. -/
def pngBlock (name : String) : List String :=
  ["### " ++ titleOf name,
   "![" ++ titleOf name ++ "](static/benchmark-graphs/" ++ name ++ ")",
   ""]

/-- Lines 122-126: the image blocks, one per globbed file in order. -/
def pngSection : List String → List String
  | [] => []
  | p :: rest => pngBlock p ++ pngSection rest

/-- Lines 128-137: the fixed trailing block with the index link. -/
def boilerplate : String :=
  "\n\n---\n\n## 📁 ملفات مرتبطة\n\n* [Home - الرئيسية](./index.md)\n\n---\n"

/-- The full `lines` list at line 141. -/
def docLines (rows : List String) (pngs : List String) : List String :=
  headerLines ++ rows ++ [sepLine, graphsHeading] ++ pngSection pngs ++ [boilerplate]

/-- Line 141: `"\n".join(lines)`. -/
def buildDoc (rows : List String) (pngs : List String) : String :=
  String.intercalate "\n" (docLines rows pngs)

/-- The image names the chart loop saves, one per group. -/
def pngsWritten (data : List Entry) : List String :=
  (groupsOf data).map fun g => pngName g.1

/-- Contents of the graphs directory after a completed run that started
with contents `s`: saving overwrites files of the same name and leaves
every other (stale) file in place. -/
def dirAfter (s : List String) (data : List Entry) : List String :=
  s ++ (pngsWritten data).filter fun x => !(decide (x ∈ s))

/-- Line 120: `sorted(graphs_dir.glob("*.png"))` — the directory's
distinct filenames in ascending order. -/
def globSorted (s : List String) : List String :=
  List.insertionSort (· ≤ ·) s.dedup

/-- Line 17. -/
def errorMsg : String := "Error: " ++ inputFilePath ++ " does not exist."

/-- Line 143. -/
def doneMsg : String := "✅ Markdown written to " ++ outputFilePath

/-- The whole script as a trace of effects, parameterised by whether the
input file exists, the parsed record list, and the graphs directory's
prior contents. Mirrors program order: directory creation (line 14),
existence check (lines 16-18), main loop (lines 43-82), chart loop
(lines 85-113), output-directory creation and document write
(lines 139-143). -/
def runScript (inputExists : Bool) (data : List Entry) (s0 : List String) : List Effect :=
  Effect.mkdirParents graphsDirPath ::
    (if inputExists then
      match rowsFor data with
      | .error m => [Effect.crash m]
      | .ok rows =>
        match chartStage (groupsOf data) with
        | .error p => p.1 ++ [Effect.crash p.2]
        | .ok effs =>
          effs ++ [Effect.mkdirParents outputParentPath,
                   Effect.writeDoc (buildDoc rows (globSorted (dirAfter s0 data))),
                   Effect.printOut doneMsg]
    else [Effect.printOut errorMsg, Effect.exitCode 1])

/-- Documents written in a trace, in order. -/
def docsIn (t : List Effect) : List String :=
  t.filterMap fun e => match e with | .writeDoc c => some c | _ => none

/-- True when the trace exits with a non-zero code. -/
def hasNonzeroExit (t : List Effect) : Bool :=
  t.any fun e => match e with | .exitCode n => decide (n ≠ 0) | _ => false

/-- True when the trace prints anything to standard error. -/
def hasErrPrint (t : List Effect) : Bool :=
  t.any fun e => match e with | .printErr _ => true | _ => false

/-- Claim formalization: on a missing input file the run exits non-zero,
the error text goes to standard error, and no document is written. -/
def fatalToStderrClaim (data : List Entry) (s0 : List String) : Prop :=
  hasNonzeroExit (runScript false data s0) = true ∧
  hasErrPrint (runScript false data s0) = true ∧
  docsIn (runScript false data s0) = []

/-- Lookup of a group by key, as in the dict indexing of the chart loop. -/
def findGroup : List (String × List GRec) → String → Option (List GRec)
  | [], _ => none
  | g :: rest, k => if g.1 = k then some g.2 else findGroup rest k

/-- Both records land in the chart group keyed by the class name of the
first. -/
def bothInGroup (data : List Entry) (e1 e2 : Entry) : Bool :=
  match findGroup (groupsOf data) e1.fullClassName with
  | some rs => decide (e1.grec ∈ rs) && decide (e2.grec ∈ rs)
  | none => false

/-- Claim formalization: records sharing a class-level identifier always
share a chart group, and an all-parameter-less group is labelled by
method names. -/
def groupingClaim (data : List Entry) : Prop :=
  (∀ e1 ∈ data, ∀ e2 ∈ data, e1.fullClassName = e2.fullClassName →
    bothInGroup data e1 e2 = true) ∧
  (∀ g ∈ groupsOf data, (∀ r ∈ g.2, r.params = "-") →
    categoryLabels g.2 = g.2.map GRec.method)

/-- The records of `data` that the loop adds to the group keyed `k`, in
input order. -/
def collected (k : String) (data : List Entry) : List GRec :=
  (data.filter fun e => decide (e.scoreVal ≠ .null) && decide (e.fullClassName = k)).map
    Entry.grec

/-- Append newly collected members to an optional existing group. -/
def addAll (o : Option (List GRec)) (rs : List GRec) : Option (List GRec) :=
  match o, rs with
  | none, [] => none
  | none, rs => some rs
  | some a, rs => some (a ++ rs)

/-- A well-formed record whose score is JSON `null`: it is skipped by the
grouping guard of line 75. -/
def nullScoreEntry : Entry :=
  { benchmark := some "A.m1", primaryMetric := some { score := some .null } }

/-- A record in the same class with an ordinary numeric score. -/
def numScoreEntry : Entry :=
  { benchmark := some "A.m2",
    primaryMetric := some { score := some (.num 1), scoreError := some (.num 0) } }

/-- A parameter-less interpolation-benchmark record. -/
def interpEntry : Entry :=
  { benchmark := some "B.benchmarkInterpolation",
    primaryMetric := some { score := some (.num 1), scoreError := some (.num 0) } }

/-- A record whose `primaryMetric` object carries no fields, so its score
is the textual default `N/A`: fine for the table, fatal for the charts. -/
def badScoreEntry : Entry := { benchmark := some "a.b", primaryMetric := some {} }

/-- A record with numeric score and error that charts cleanly. -/
def sampleEntry : Entry :=
  { benchmark := some "A.m",
    primaryMetric := some { score := some (.num 1), scoreError := some (.num 2) } }

/-- The table row of `sampleEntry`. -/
def sampleRowText : String := "| `A.m` | - | N/A | 1.0000000000 | ±2.0000000000 | N/A |  |"

/-- Input mixing a null-score record, a numeric record of the same
class, and a duplicated parameter-less interpolation benchmark. -/
def mixedData : List Entry := [nullScoreEntry, numScoreEntry, interpEntry, interpEntry]

/-- Scan asserting that every dollar sign is part of a backslash-dollar
pair, so none is left for Markdown to read as math. -/
def noBareDollarAux : Nat → List Char → Bool
  | 0, _ => true
  | fuel + 1, l =>
    match l with
    | [] => true
    | c :: rest =>
      if c = '\\' then
        match rest with
        | c2 :: rest2 => if c2 = '$' then noBareDollarAux fuel rest2 else noBareDollarAux fuel (c2 :: rest2)
        | [] => true
      else if c = '$' then false
      else noBareDollarAux fuel rest

/-- Scan with fuel equal to the input length, which every step consumes. -/
def noBareDollar (l : List Char) : Bool := noBareDollarAux l.length l

/-! Helper lemmas about the digit renderers. -/

theorem padDigits_length (p n : Nat) : (padDigits p n).length = p := by
  induction p generalizing n with
  | zero => rfl
  | succ p ih => simp [padDigits, ih]

theorem digitChar_ne_dot (n : Nat) : digitChar n ≠ '.' := by
  unfold digitChar
  split <;> decide

theorem digitChar_ne_underscore (n : Nat) : digitChar n ≠ '_' := by
  unfold digitChar
  split <;> decide

theorem padDigits_ne_dot (p n : Nat) : ∀ c ∈ padDigits p n, c ≠ '.' := by
  induction p generalizing n with
  | zero => intro c hc; simp [padDigits] at hc
  | succ p ih =>
    intro c hc
    simp only [padDigits, List.mem_append, List.mem_singleton] at hc
    rcases hc with hc | hc
    · exact ih _ c hc
    · subst hc; exact digitChar_ne_dot _

theorem natDigitsAux_ne_dot (fuel n : Nat) : ∀ c ∈ natDigitsAux fuel n, c ≠ '.' := by
  induction fuel generalizing n with
  | zero => intro c hc; simp [natDigitsAux] at hc
  | succ fuel ih =>
    intro c hc
    unfold natDigitsAux at hc
    split at hc
    · simp only [List.mem_singleton] at hc
      subst hc; exact digitChar_ne_dot _
    · simp only [List.mem_append, List.mem_singleton] at hc
      rcases hc with hc | hc
      · exact ih (n / 10) c hc
      · subst hc; exact digitChar_ne_dot _

theorem natDigits_ne_dot (n : Nat) : ∀ c ∈ natDigits n, c ≠ '.' :=
  natDigitsAux_ne_dot (n + 1) n

theorem string_data_append (a b : String) : (a ++ b).data = a.data ++ b.data := rfl

/-- Decomposition of a fixed-point rendering: an integer part free of
dots, one dot, then exactly `prec` dot-free fraction digits. -/
theorem formatFixed_decomp (prec : Nat) (q : ℚ) :
    ∃ ip fr : String, formatFixed prec q = ip ++ "." ++ fr ∧
      fr.length = prec ∧ (∀ c ∈ fr.data, c ≠ '.') ∧ (∀ c ∈ ip.data, c ≠ '.') := by
  refine ⟨(if roundHalfEven (q * (10 : ℚ) ^ prec) < 0 then "-" else "")
      ++ String.mk (natDigits ((roundHalfEven (q * (10 : ℚ) ^ prec)).natAbs / 10 ^ prec)),
    String.mk (padDigits prec ((roundHalfEven (q * (10 : ℚ) ^ prec)).natAbs % 10 ^ prec)),
    rfl, padDigits_length _ _, padDigits_ne_dot _ _, ?_⟩
  intro c hc
  rw [string_data_append] at hc
  rcases List.mem_append.1 hc with hc | hc
  · split at hc
    · simp only [List.mem_singleton] at hc
      subst hc; decide
    · simp at hc
  · exact natDigits_ne_dot _ c hc

/-- C4 — Score/error formatter `fmt`: a value that converts to a float
renders in fixed-point with exactly ten digits after the single decimal
point; a value that does not (a non-numeric string, or `None`) passes
through as its raw text. -/
theorem fmt_formats_numbers_and_passes_raw_text (v : PyVal) :
    (∀ q, pyFloat v = some q → fmt v = formatFixed 10 q ∧
      ∃ ip fr : String, fmt v = ip ++ "." ++ fr ∧ fr.length = 10 ∧
        (∀ c ∈ fr.data, c ≠ '.') ∧ (∀ c ∈ ip.data, c ≠ '.')) ∧
    (pyFloat v = none →
      (∃ s, v = .str s ∧ fmt v = s) ∨ (v = .null ∧ fmt v = "None")) := by
  constructor
  · intro q hq
    have hfmt : fmt v = formatFixed 10 q := by
      unfold fmt tryFixed
      rw [hq]
    exact ⟨hfmt, hfmt ▸ formatFixed_decomp 10 q⟩
  · intro hnone
    cases v with
    | num q => simp [pyFloat] at hnone
    | str s =>
      left
      refine ⟨s, rfl, ?_⟩
      unfold fmt tryFixed
      rw [hnone]
    | null =>
      right
      exact ⟨rfl, rfl⟩

/-- Witness for C4 at concrete inputs: the numeric value 5/2 renders as
`2.5000000000`, and the literal fallback token `N/A` passes through. -/
theorem fmt_formats_numbers_and_passes_raw_text_witness :
    fmt (PyVal.num (5/2)) = formatFixed 10 (5/2) ∧ fmt (PyVal.str "N/A") = "N/A" := by
  constructor
  · exact ((fmt_formats_numbers_and_passes_raw_text (PyVal.num (5/2))).1 (5/2) rfl).1
  · have h := (fmt_formats_numbers_and_passes_raw_text (PyVal.str "N/A")).2 (by decide)
    rcases h with ⟨s, hs, hf⟩ | ⟨hn, _⟩
    · cases hs; exact hf
    · exact absurd hn (by decide)

theorem escDollar_head_ne (l : List Char) (t : List Char) :
    escDollar l = '$' :: t → False := by
  cases l with
  | nil => intro h; simp [escDollar] at h
  | cons c cs =>
    intro h
    unfold escDollar at h
    split at h
    · simp at h
    · rename_i hne
      rw [List.cons.injEq] at h
      exact hne h.1

theorem noBareDollarAux_escDollar (fuel : Nat) (l : List Char)
    (h : (escDollar l).length ≤ fuel) : noBareDollarAux fuel (escDollar l) = true := by
  induction l generalizing fuel with
  | nil => cases fuel <;> rfl
  | cons c cs ih =>
    by_cases hd : c = '$'
    · subst hd
      have he : escDollar ('$' :: cs) = '\\' :: '$' :: escDollar cs := by
        rw [escDollar]
        simp
      rw [he] at h ⊢
      cases fuel with
      | zero => simp at h
      | succ fuel =>
        have step : noBareDollarAux (fuel + 1) ('\\' :: '$' :: escDollar cs)
            = noBareDollarAux fuel (escDollar cs) := rfl
        rw [step]
        exact ih fuel (by simp only [List.length_cons] at h; omega)
    · have he : escDollar (c :: cs) = c :: escDollar cs := by
        rw [escDollar]
        simp [hd]
      rw [he] at h ⊢
      cases fuel with
      | zero => simp at h
      | succ fuel =>
        by_cases hb : c = '\\'
        · subst hb
          cases he2 : escDollar cs with
          | nil => rfl
          | cons c2 rest2 =>
            have h2 : ¬ c2 = '$' := fun hx => escDollar_head_ne cs rest2 (hx ▸ he2)
            have step : noBareDollarAux (fuel + 1) ('\\' :: c2 :: rest2)
                = noBareDollarAux fuel (c2 :: rest2) := by
              simp only [noBareDollarAux]
              simp [h2]
            rw [step, ← he2]
            exact ih fuel (by simp only [List.length_cons] at h; omega)
        · have step : noBareDollarAux (fuel + 1) (c :: escDollar cs)
              = noBareDollarAux fuel (escDollar cs) := by
            simp only [noBareDollarAux]
            simp [hb, hd]
          rw [step]
          exact ih fuel (by simp only [List.length_cons] at h; omega)

theorem noBareDollar_escDollar (l : List Char) : noBareDollar (escDollar l) = true :=
  noBareDollarAux_escDollar (escDollar l).length l le_rfl

/-- C6 — Parameter rendering: an empty mapping displays `-`; a non-empty
mapping joins `key=value` pairs with `, ` and escapes every dollar sign,
leaving no bare dollar for Markdown math; the example mapping
`a=1, b=2` renders exactly so. -/
theorem params_render_spec (ps : List (String × String)) :
    (ps = [] → paramsStr ps = "-") ∧
    (ps ≠ [] →
      paramsStr ps =
        String.mk (escDollar (String.intercalate ", "
          (ps.map fun kv => kv.1 ++ "=" ++ kv.2)).data) ∧
      noBareDollar (paramsStr ps).data = true) ∧
    paramsStr [("a", "1"), ("b", "2")] = "a=1, b=2" := by
  refine ⟨fun h => by simp [paramsStr, h], fun h => ?_, by decide⟩
  have hne : ps.isEmpty = false := by
    cases ps with
    | nil => exact absurd rfl h
    | cons a l => rfl
  constructor
  · simp [paramsStr, hne]
  · simp only [paramsStr, hne, Bool.false_eq_true, if_false]
    exact noBareDollar_escDollar _

/-- Witness for C6 at concrete inputs: empty mapping, the example
mapping, and a value containing a dollar sign. -/
theorem params_render_spec_witness :
    paramsStr [] = "-" ∧ paramsStr [("a", "1"), ("b", "2")] = "a=1, b=2" ∧
    paramsStr [("k", "a$b")] = "k=a\\$b" ∧
    noBareDollar (paramsStr [("k", "a$b")]).data = true := by
  refine ⟨(params_render_spec []).1 rfl, (params_render_spec []).2.2, by decide, ?_⟩
  exact ((params_render_spec [("k", "a$b")]).2.1 (by decide)).2

/-- C5 — Percentile summary: the rendered entries are exactly the
mapping's entries reordered ascending by the numeric value of the key
(whatever the input order), each shown as `P<key>=<value>` with the
value at six decimal places when numeric and raw otherwise; on the
example mapping of 50.0 and 99.0 the result is
`P50.0=1.234568, P99.0=5.000000` from either input order. -/
theorem percentiles_sorted_ascending (ps : List (String × PyVal))
    (_h : percKeysOk ps = true) :
    (sortedPercentiles ps).Perm ps ∧
    List.Sorted percRel (sortedPercentiles ps) ∧
    percentileItems ps =
      (sortedPercentiles ps).map (fun kv => "P" ++ kv.1 ++ "=" ++ tryFixed 6 kv.2) ∧
    percentilesStr [("50.0", .num 1.23456789), ("99.0", .num 5)] =
      "P50.0=1.234568, P99.0=5.000000" ∧
    percentilesStr [("99.0", .num 5), ("50.0", .num 1.23456789)] =
      "P50.0=1.234568, P99.0=5.000000" :=
  ⟨List.perm_insertionSort percRel ps, List.sorted_insertionSort percRel ps,
    rfl, by decide, by decide⟩

/-- Witness for C5 at the example mapping given in reverse order: the
keys are numeric and the sorted rendering holds. -/
theorem percentiles_sorted_ascending_witness :
    percKeysOk [("99.0", PyVal.num 5), ("50.0", PyVal.num 1.23456789)] = true ∧
    List.Sorted percRel
      (sortedPercentiles [("99.0", PyVal.num 5), ("50.0", PyVal.num 1.23456789)]) ∧
    percentilesStr [("99.0", PyVal.num 5), ("50.0", PyVal.num 1.23456789)] =
      "P50.0=1.234568, P99.0=5.000000" :=
  ⟨by decide,
    (percentiles_sorted_ascending [("99.0", PyVal.num 5), ("50.0", PyVal.num 1.23456789)]
      (by decide)).2.1,
    (percentiles_sorted_ascending [("99.0", PyVal.num 5), ("50.0", PyVal.num 1.23456789)]
      (by decide)).2.2.2.2⟩


/-- C1 — One table row per input record, in input order: when the main
loop completes, the row list has the input list's length, the row at
every index is the rendering of the record at the same index, and the
document places exactly those rows between the header and the trailing
sections. -/
theorem one_row_per_record_in_order (data : List Entry) (rows : List String)
    (h : rowsFor data = Except.ok rows) :
    rows.length = data.length ∧
    (∀ i : Nat, (data[i]?).map rowFor = (rows[i]?).map Except.ok) ∧
    (∀ pngs, docLines rows pngs =
      headerLines ++ rows ++ [sepLine, graphsHeading] ++ pngSection pngs ++ [boilerplate]) := by
  induction data generalizing rows with
  | nil =>
    simp only [rowsFor] at h
    cases h
    exact ⟨rfl, fun i => rfl, fun pngs => rfl⟩
  | cons e rest ih =>
    simp only [rowsFor] at h
    cases hr : rowFor e with
    | error m => rw [hr] at h; cases h
    | ok row =>
      rw [hr] at h
      cases hrs : rowsFor rest with
      | error m => rw [hrs] at h; cases h
      | ok rows2 =>
        rw [hrs] at h
        cases h
        obtain ⟨hlen, hidx, _⟩ := ih rows2 hrs
        refine ⟨by simp [hlen], ?_, fun pngs => rfl⟩
        intro i
        cases i with
        | zero => simpa using hr
        | succ i => simpa using hidx i

/-- Witness for C1 on a one-record input: the single produced row is the
rendering of the single record. -/
theorem one_row_per_record_in_order_witness :
    ((([sampleEntry] : List Entry)[0]?).map rowFor) =
      ((([sampleRowText] : List String)[0]?).map Except.ok) :=
  (one_row_per_record_in_order [sampleEntry] [sampleRowText] rfl).2.1 0

/-- C2 (code bug) — A record whose score is the textual default `N/A`
formats fine in the table, but the chart stage formats the raw score
with `:.6f` (line 105), which raises on a non-numeric value: the run
crashes and the output document is never written, contradicting the
spec's promise that field-level fallbacks never block the write. -/
theorem nonnumeric_score_crashes_chart_stage :
    rowFor badScoreEntry = Except.ok "| `a.b` | - | N/A | N/A | ±N/A | N/A |  |" ∧
    runScript true [badScoreEntry] [] =
      [Effect.mkdirParents graphsDirPath,
       Effect.crash "ValueError: unknown format code f for str"] ∧
    docsIn (runScript true [badScoreEntry] []) = [] :=
  ⟨rfl, rfl, rfl⟩

/-- Counterexample for C3 as stated: on a missing input file nothing is
ever printed to standard error — the script prints the error with a
plain `print`, which goes to standard output. -/
theorem missing_input_error_not_on_stderr : ¬ fatalToStderrClaim [] [] := fun h =>
  absurd h.2.1 (by decide)

/-- C3 (amended) — Missing input file: the run exits with the non-zero
code 1, the error message is printed to standard output (standard error
stays silent), and the output document is neither written nor
modified. -/
theorem missing_input_exits_nonzero_stdout_no_write (data : List Entry) (s0 : List String) :
    hasNonzeroExit (runScript false data s0) = true ∧
    Effect.printOut errorMsg ∈ runScript false data s0 ∧
    hasErrPrint (runScript false data s0) = false ∧
    docsIn (runScript false data s0) = [] :=
  ⟨rfl, List.Mem.tail _ (List.Mem.head _), rfl, rfl⟩

/-- C9 — The graphs directory is created (with parents) as the very
first effect of every run, before the input-existence check, so it
exists even when the run aborts because the input file is missing. -/
theorem graphs_dir_created_before_input_check (inputExists : Bool) (data : List Entry)
    (s0 : List String) :
    (runScript inputExists data s0).head? = some (Effect.mkdirParents graphsDirPath) ∧
    runScript false data s0 =
      [Effect.mkdirParents graphsDirPath, Effect.printOut errorMsg, Effect.exitCode 1] :=
  ⟨rfl, rfl⟩

theorem findGroup_addToGroups_same (gs : List (String × List GRec)) (k : String) (r : GRec) :
    findGroup (addToGroups gs k r) k = some ((findGroup gs k).getD [] ++ [r]) := by
  induction gs with
  | nil => simp [addToGroups, findGroup]
  | cons g rest ih =>
    by_cases hgk : g.1 = k
    · simp [addToGroups, findGroup, hgk]
    · simp [addToGroups, findGroup, hgk, ih]

theorem findGroup_addToGroups_other (gs : List (String × List GRec)) {k k2 : String}
    (r : GRec) (hne : k2 ≠ k) :
    findGroup (addToGroups gs k2 r) k = findGroup gs k := by
  induction gs with
  | nil => simp [addToGroups, findGroup, hne]
  | cons g rest ih =>
    by_cases hgk : g.1 = k2
    · have hgnk : g.1 ≠ k := by rw [hgk]; exact hne
      simp [addToGroups, findGroup, hgk, hgnk, hne]
    · simp [addToGroups, findGroup, hgk, ih]

theorem addAll_nil (o : Option (List GRec)) : addAll o [] = o := by
  cases o <;> simp [addAll]

theorem findGroup_foldl (data : List Entry) (gs : List (String × List GRec)) (k : String) :
    findGroup (data.foldl updateGroups gs) k = addAll (findGroup gs k) (collected k data) := by
  induction data generalizing gs with
  | nil => simp [collected, addAll_nil]
  | cons e rest ih =>
    simp only [List.foldl_cons]
    rw [ih]
    by_cases hnull : e.scoreVal = .null
    · have h1 : updateGroups gs e = gs := by simp [updateGroups, hnull]
      have h2 : collected k (e :: rest) = collected k rest := by
        simp [collected, List.filter_cons, hnull]
      rw [h1, h2]
    · by_cases hk : e.fullClassName = k
      · have h1 : updateGroups gs e = addToGroups gs k e.grec := by
          simp [updateGroups, hnull, hk]
        have h2 : collected k (e :: rest) = e.grec :: collected k rest := by
          simp [collected, List.filter_cons, hnull, hk]
        rw [h1, h2, findGroup_addToGroups_same]
        cases hf : findGroup gs k with
        | none => simp [addAll]
        | some a => simp [addAll]
      · have h1 : updateGroups gs e = addToGroups gs e.fullClassName e.grec := by
          simp [updateGroups, hnull]
        have h2 : collected k (e :: rest) = collected k rest := by
          simp [collected, List.filter_cons, hnull, hk]
        rw [h1, h2, findGroup_addToGroups_other _ _ hk]

theorem findGroup_groupsOf (data : List Entry) (k : String) :
    findGroup (groupsOf data) k = addAll none (collected k data) :=
  findGroup_foldl data [] k

/-- Counterexample for C7 as stated: in `mixedData` the null-score record
shares the class prefix `A` with the numeric record yet lands in no
group, and the all-parameter-less interpolation group `B` is labelled
with synthetic placeholder counts, not method names. -/
theorem grouping_claim_counterexample :
    ¬ groupingClaim mixedData ∧
    nullScoreEntry.fullClassName = numScoreEntry.fullClassName ∧
    bothInGroup mixedData nullScoreEntry numScoreEntry = false ∧
    (∀ r ∈ [interpEntry.grec, interpEntry.grec], r.params = "-") ∧
    ("B", [interpEntry.grec, interpEntry.grec]) ∈ groupsOf mixedData ∧
    categoryLabels [interpEntry.grec, interpEntry.grec] ≠
      [interpEntry.grec, interpEntry.grec].map GRec.method :=
  ⟨fun h => absurd (h.1 nullScoreEntry (by decide) numScoreEntry (by decide) rfl) (by decide),
    rfl, by decide, by decide, by decide, by decide⟩

/-- C7 (amended) — Any two records with non-null scores that share the
class-level identifier land in the same chart group, and a group whose
members are all parameter-less gets method names as category labels,
except when the group's method set is exactly the interpolation special
case, which gets synthetic placeholder-count labels instead. -/
theorem grouping_and_labels_amended (data : List Entry) :
    (∀ e1 ∈ data, ∀ e2 ∈ data, e1.scoreVal ≠ .null → e2.scoreVal ≠ .null →
      e1.fullClassName = e2.fullClassName → bothInGroup data e1 e2 = true) ∧
    (∀ g ∈ groupsOf data, (∀ r ∈ g.2, r.params = "-") →
      (g.2.map GRec.method).dedup ≠ ["benchmarkInterpolation"] →
      categoryLabels g.2 = g.2.map GRec.method) := by
  constructor
  · intro e1 h1 e2 h2 hn1 hn2 hkey
    have hm1 : e1.grec ∈ collected e1.fullClassName data := by
      refine List.mem_map_of_mem _ (List.mem_filter.2 ⟨h1, ?_⟩)
      simp [hn1]
    have hm2 : e2.grec ∈ collected e1.fullClassName data := by
      refine List.mem_map_of_mem _ (List.mem_filter.2 ⟨h2, ?_⟩)
      simp [hn2, hkey.symm]
    have hfind : findGroup (groupsOf data) e1.fullClassName
        = some (collected e1.fullClassName data) := by
      rw [findGroup_groupsOf]
      cases hc : collected e1.fullClassName data with
      | nil => rw [hc] at hm1; cases hm1
      | cons a l => simp [addAll]
    unfold bothInGroup
    rw [hfind]
    simp [hm1, hm2]
  · intro g hg hparams hmethods
    have hall : ((g.2.map fun r => r.params).all fun p => p = "-") = true := by
      rw [List.all_eq_true]
      intro p hp
      rcases List.mem_map.1 hp with ⟨r, hr, hrp⟩
      simp [← hrp, hparams r hr]
    simp only [categoryLabels]
    rw [if_neg hmethods, if_pos hall]

/-- Witness for C7 (amended) on two same-class numeric records: they
share a group and their parameter-less group is labelled by method
names. -/
theorem grouping_and_labels_amended_witness :
    bothInGroup [sampleEntry, numScoreEntry] sampleEntry numScoreEntry = true ∧
    categoryLabels [sampleEntry.grec, numScoreEntry.grec] =
      [sampleEntry.grec, numScoreEntry.grec].map GRec.method := by
  constructor
  · exact (grouping_and_labels_amended [sampleEntry, numScoreEntry]).1 sampleEntry (by decide)
      numScoreEntry (by decide) (by decide) (by decide) rfl
  · exact (grouping_and_labels_amended [sampleEntry, numScoreEntry]).2
      ("A", [sampleEntry.grec, numScoreEntry.grec]) (by decide) (by decide) (by decide)

theorem docsIn_append (a b : List Effect) : docsIn (a ++ b) = docsIn a ++ docsIn b :=
  List.filterMap_append _ _ _

theorem chartStage_ok_no_docs (gs : List (String × List GRec)) (effs : List Effect)
    (h : chartStage gs = Except.ok effs) : docsIn effs = [] := by
  induction gs generalizing effs with
  | nil =>
    simp only [chartStage] at h
    cases h
    rfl
  | cons g rest ih =>
    simp only [chartStage] at h
    split at h
    · cases hc : chartStage rest with
      | ok effs2 =>
        rw [hc] at h
        cases h
        rw [docsIn_append, ih effs2 hc]
        rfl
      | error p => rw [hc] at h; cases h
    · cases h

theorem dirAfter_mem {s0 : List String} {data : List Entry} :
    ∀ x ∈ pngsWritten data, x ∈ dirAfter s0 data := by
  intro x hx
  by_cases hs : x ∈ s0
  · exact List.mem_append_left _ hs
  · exact List.mem_append_right _ (List.mem_filter.2 ⟨hx, by simp [hs]⟩)

theorem dirAfter_idem (s0 : List String) (data : List Entry) :
    dirAfter (dirAfter s0 data) data = dirAfter s0 data := by
  have hfil : ((pngsWritten data).filter fun x => !(decide (x ∈ dirAfter s0 data))) = [] := by
    rw [List.filter_eq_nil_iff]
    intro a ha
    simp [dirAfter_mem a ha]
  show dirAfter s0 data ++
      ((pngsWritten data).filter fun x => !(decide (x ∈ dirAfter s0 data))) = dirAfter s0 data
  rw [hfil, List.append_nil]

/-- C8 — Determinism and idempotence of the written document: a
completed run writes exactly one document, a function of the records
and the prior directory contents; running again on the same input (the
directory now holding the charts the first run saved, since saving
overwrites same-named files) writes a byte-identical document. Chart
image bytes are outside the model; their filenames are what the
document embeds. -/
theorem run_twice_same_document (data : List Entry) (s0 : List String)
    (rows : List String) (effs : List Effect)
    (h1 : rowsFor data = Except.ok rows) (h2 : chartStage (groupsOf data) = Except.ok effs) :
    docsIn (runScript true data s0) = [buildDoc rows (globSorted (dirAfter s0 data))] ∧
    docsIn (runScript true data (dirAfter s0 data)) = docsIn (runScript true data s0) := by
  have hno : docsIn effs = [] := chartStage_ok_no_docs _ _ h2
  have hdocs : ∀ s : List String,
      docsIn (runScript true data s) = [buildDoc rows (globSorted (dirAfter s data))] := by
    intro s
    simp only [runScript, h1, h2, if_true]
    simp only [docsIn, List.filterMap_cons, List.filterMap_append] at hno ⊢
    simp [hno]
  exact ⟨hdocs s0, by rw [hdocs (dirAfter s0 data), hdocs s0, dirAfter_idem]⟩

/-- Witness for C8 on a one-record numeric input starting from an empty
graphs directory. -/
theorem run_twice_same_document_witness :
    docsIn (runScript true [sampleEntry] []) =
      [buildDoc [sampleRowText] (globSorted (dirAfter [] [sampleEntry]))] ∧
    docsIn (runScript true [sampleEntry] (dirAfter [] [sampleEntry])) =
      docsIn (runScript true [sampleEntry] []) :=
  run_twice_same_document [sampleEntry] [] [sampleRowText]
    [Effect.savePng "A_comparison.png",
     Effect.printOut "📈 Graph saved: docs-site/static/benchmark-graphs/A_comparison.png"]
    rfl rfl

theorem pngSection_mem {p : String} {l : List String} (hp : p ∈ l) :
    ∀ x ∈ pngBlock p, x ∈ pngSection l := by
  induction l with
  | nil => cases hp
  | cons q rest ih =>
    intro x hx
    rcases List.mem_cons.1 hp with h | h
    · subst h
      exact List.mem_append_left _ hx
    · exact List.mem_append_right _ (ih h x hx)

theorem underscoreToSpace_no_underscore (l : List Char) :
    ∀ c ∈ underscoreToSpace l, c ≠ '_' := by
  induction l with
  | nil => intro c hc; cases hc
  | cons a rest ih =>
    intro c hc
    rcases List.mem_cons.1 hc with h | h
    · subst h
      by_cases ha : a = '_'
      · simp [ha]
      · simp [ha]
    · exact ih c h

/-- C10 — The graphs section: its heading line is part of every built
document, every file in the graphs directory (stale ones included,
since a run only ever adds files) gets an image block, the listing
follows ascending filename order, and each heading comes from the
filename with underscores turned into spaces, so no underscore
survives in a title. -/
theorem graphs_section_always_listed (rows : List String) (s : List String) :
    graphsHeading ∈ docLines rows (globSorted s) ∧
    (∀ p ∈ s, "### " ++ titleOf p ∈ docLines rows (globSorted s)) ∧
    List.Sorted (· ≤ ·) (globSorted s) ∧
    (∀ p : String, ∀ c ∈ (titleOf p).data, c ≠ '_') ∧
    (∀ (data : List Entry) (s0 : List String), ∀ p ∈ s0, p ∈ dirAfter s0 data) := by
  refine ⟨?_, ?_, ?_, ?_, ?_⟩
  · simp [docLines]
  · intro p hp
    have hp2 : p ∈ globSorted s := by
      simp [globSorted, List.mem_dedup, hp]
    have hline := pngSection_mem hp2 ("### " ++ titleOf p) (by simp [pngBlock])
    simp only [docLines, List.mem_append]
    exact Or.inl (Or.inr hline)
  · exact List.sorted_insertionSort _ _
  · intro p c hc
    exact underscoreToSpace_no_underscore _ c hc
  · intro data s0 p hp
    exact List.mem_append_left _ hp

/-- Witness for C10 on a directory holding two files given out of
order. -/
theorem graphs_section_always_listed_witness :
    graphsHeading ∈ docLines [] (globSorted ["b.png", "a.png"]) ∧
    "### " ++ titleOf "a.png" ∈ docLines [] (globSorted ["b.png", "a.png"]) ∧
    List.Sorted (· ≤ ·) (globSorted ["b.png", "a.png"]) :=
  ⟨(graphs_section_always_listed [] ["b.png", "a.png"]).1,
   (graphs_section_always_listed [] ["b.png", "a.png"]).2.1 "a.png" (by decide),
   (graphs_section_always_listed [] ["b.png", "a.png"]).2.2.1⟩

end Jmh






